import Mathlib

/-!
Shallow embedding of the vocals-sdk-nextjs client hook
(src/unnamed/part_002, the `useVocals` React hook) and proofs about it.

The hook is single-threaded JavaScript: every mutating operation is a
synchronous block between awaits, so each one is embedded as a pure
function on an explicit state record.  Timing refs that no property
concerns (`playbackStartTimeRef`, `playbackOffsetRef`) are omitted from
the playback state; object-valued refs (`currentAudioBufferSourceRef`,
`currentGainNodeRef`, `playbackAudioContextRef`) are modelled by Booleans
recording whether the ref currently holds an object.
-/

namespace Vocals

/-- A TTS audio segment as delivered in a `tts_audio` message
(`TTSAudioSegment` in the source).  `duration_seconds` is a float the
code never branches on, so it is omitted. -/
structure TTSAudioSegment where
  segment_id : String
  sentence_number : Nat
  text : String
  audio_data : String
  sample_rate : Nat
  format : String
  deriving DecidableEq, Repr

/-- The duplicate test used by `addToQueue` (part_002 lines 1029-1033):
two segments collide when both `segment_id` and `sentence_number` agree. -/
def sameKey (a b : TTSAudioSegment) : Bool :=
  a.segment_id == b.segment_id && a.sentence_number == b.sentence_number

/-- Embedding of `addToQueue` (part_002 lines 1026-1045): the updater
passed to `setAudioQueue`.  If some existing entry shares the identity
key the queue is returned unchanged (segment dropped with a console
warning); otherwise the segment is appended at the tail. -/
def addToQueue (prev : List TTSAudioSegment) (segment : TTSAudioSegment) :
    List TTSAudioSegment :=
  if prev.any (fun existing => sameKey existing segment) then prev
  else prev ++ [segment]

/-- Key-uniqueness predicate for the queue: no two entries collide. -/
def keysUnique (q : List TTSAudioSegment) : Prop :=
  List.Pairwise (fun a b => sameKey a b = false) q

instance (q : List TTSAudioSegment) : Decidable (keysUnique q) := by
  unfold keysUnique; infer_instance

theorem sameKey_comm (a b : TTSAudioSegment) : sameKey a b = sameKey b a := by
  simp only [sameKey, Bool.and_comm, BEq.comm]

theorem addToQueue_preserves_keysUnique
    (prev : List TTSAudioSegment) (segment : TTSAudioSegment)
    (h : keysUnique prev) : keysUnique (addToQueue prev segment) := by
  unfold addToQueue
  by_cases hdup : prev.any (fun existing => sameKey existing segment) = true
  · simpa [hdup] using h
  · have hall : ∀ x ∈ prev, sameKey x segment = false := by
      intro x hx
      have := (List.any_eq_false).mp (Bool.eq_false_iff.mpr hdup) x hx
      simpa using this
    simp only [hdup, Bool.false_eq_true, if_false]
    unfold keysUnique
    rw [List.pairwise_append]
    refine ⟨h, List.pairwise_singleton _ _, ?_⟩
    intro a ha b hb
    have hb' : b = segment := by simpa using hb
    subst hb'
    exact hall a ha

theorem foldl_addToQueue_keysUnique
    (segs : List TTSAudioSegment) (acc : List TTSAudioSegment)
    (hacc : keysUnique acc) :
    keysUnique (segs.foldl addToQueue acc) := by
  induction segs generalizing acc with
  | nil => simpa using hacc
  | cons s rest ih =>
      simpa using ih (addToQueue acc s) (addToQueue_preserves_keysUnique acc s hacc)

/-- C1: every sequence of `addToQueue` calls (starting from the empty
queue) yields a queue with pairwise-distinct (segment_id,
sentence_number) keys; a duplicate enqueue returns the queue unchanged,
and a non-duplicate enqueue appends the segment at the tail. -/
theorem addToQueue_no_duplicates :
    (∀ segs : List TTSAudioSegment, keysUnique (segs.foldl addToQueue [])) ∧
    (∀ (prev : List TTSAudioSegment) (segment : TTSAudioSegment),
      prev.any (fun existing => sameKey existing segment) = true →
      addToQueue prev segment = prev) ∧
    (∀ (prev : List TTSAudioSegment) (segment : TTSAudioSegment),
      prev.any (fun existing => sameKey existing segment) = false →
      addToQueue prev segment = prev ++ [segment]) := by
  refine ⟨?_, ?_, ?_⟩
  · intro segs
    exact foldl_addToQueue_keysUnique segs [] (by simp [keysUnique])
  · intro prev segment h
    simp [addToQueue, h]
  · intro prev segment h
    simp [addToQueue, h]

/-- Sample segments used to instantiate the theorems at concrete inputs. -/
def segA : TTSAudioSegment :=
  { segment_id := "seg1", sentence_number := 0, text := "hello"
    audio_data := "AAAA", sample_rate := 24000, format := "wav" }

def segB : TTSAudioSegment :=
  { segment_id := "seg1", sentence_number := 0, text := "hello again"
    audio_data := "BBBB", sample_rate := 24000, format := "wav" }

def segC : TTSAudioSegment :=
  { segment_id := "seg2", sentence_number := 0, text := "world"
    audio_data := "CCCC", sample_rate := 24000, format := "wav" }

/-- Witness for C1: enqueue A, its duplicate B, then C — the duplicate is
dropped and C is appended. -/
theorem addToQueue_no_duplicates_witness :
    keysUnique ([segA, segB, segC].foldl addToQueue []) ∧
    addToQueue [segA] segB = [segA] ∧
    addToQueue [segA] segC = [segA] ++ [segC] := by
  refine ⟨addToQueue_no_duplicates.1 [segA, segB, segC],
    addToQueue_no_duplicates.2.1 [segA] segB (by decide),
    addToQueue_no_duplicates.2.2 [segA] segC (by decide)⟩

/-- Playback states of the scheduler (`PlaybackState` in the source:
the argument of `setPlaybackState`). -/
inductive PBState where
  | idle
  | playing
  | paused
  | loading
  | error
  deriving DecidableEq, Repr

/-- Scheduler state: the React state (`audioQueue`, `currentSegment`,
`playbackState`) together with the refs the playback methods read and
write.  `sourceNode`, `gainNode`, `playbackCtx` record whether
`currentAudioBufferSourceRef`, `currentGainNodeRef`,
`playbackAudioContextRef` hold an object; `ctxSuspended` mirrors
`playbackAudioContextRef.current.state === "suspended"`. -/
structure PlayerState where
  audioQueue : List TTSAudioSegment
  currentSegment : Option TTSAudioSegment
  playbackState : PBState
  isPlaying : Bool
  isFadingOut : Bool
  sourceNode : Bool
  gainNode : Bool
  playbackCtx : Bool
  ctxSuspended : Bool
  deriving DecidableEq, Repr

/-- State-level enqueue: the `addToQueue` callback applies the queue
updater of lines 1026-1045 to the `audioQueue` state. -/
def addToQueueS (s : PlayerState) (segment : TTSAudioSegment) : PlayerState :=
  { s with audioQueue := addToQueue s.audioQueue segment }

/-- Embedding of `clearQueue` (part_002 lines 1047-1078): empties the
queue, clears the current segment, stops and drops the source and gain
nodes (each guarded by a presence check and a try/catch in the source,
which a Boolean update subsumes), and resets to idle with both the
playing and fading flags cleared. -/
def clearQueue (s : PlayerState) : PlayerState :=
  { s with audioQueue := [], currentSegment := none,
           sourceNode := false, gainNode := false,
           playbackState := .idle, isPlaying := false, isFadingOut := false }

/-- Embedding of `stopAudio` (part_002 lines 1214-1236); the
`playbackOffsetRef.current = 0` write concerns a timing ref omitted from
the model. -/
def stopAudio (s : PlayerState) : PlayerState :=
  { s with sourceNode := false, gainNode := false,
           playbackState := .idle, currentSegment := none,
           isPlaying := false, isFadingOut := false }

/-- Embedding of `pauseAudio` (part_002 lines 1206-1212): only acts when
a playback context exists and audio is playing; suspends the context and
records the paused state. -/
def pauseAudio (s : PlayerState) : PlayerState :=
  if s.playbackCtx && s.isPlaying then
    { s with ctxSuspended := true, playbackState := .paused, isPlaying := false }
  else s

/-- Embedding of `playNextSegment` (part_002 lines 1088-1187) up to its
suspension points, with the outcome of `decodeAudioData` supplied as
`decodeOk`.  Re-entry while playing or fading is rejected; an empty
queue resets to idle; otherwise the head segment is removed from the
queue and becomes current before decoding.  On decode success the new
source and gain nodes are installed and playback starts; on failure the
state becomes `error` with the playing flag cleared (the delayed
advance-on-error retry is a separately scheduled call of this same
function). -/
def playNextSegment (decodeOk : Bool) (s : PlayerState) : PlayerState :=
  if s.isPlaying || s.isFadingOut then s
  else
    match s.audioQueue with
    | [] => { s with playbackState := .idle, currentSegment := none,
                     isPlaying := false }
    | nextSegment :: rest =>
        let s1 : PlayerState :=
          { s with isPlaying := true, playbackState := .playing,
                   audioQueue := rest, currentSegment := some nextSegment,
                   playbackCtx := true, ctxSuspended := false }
        if decodeOk then { s1 with sourceNode := true, gainNode := true }
        else { s1 with playbackState := .error, isPlaying := false }

/-- Embedding of `playAudio` (part_002 lines 1189-1204): a no-op while
playing or fading out; resumes a suspended context when paused;
otherwise starts the next queued segment when the queue is non-empty. -/
def playAudio (decodeOk : Bool) (s : PlayerState) : PlayerState :=
  if s.isPlaying || s.isFadingOut then s
  else if s.playbackState = .paused then
    if s.playbackCtx && s.ctxSuspended then
      { s with ctxSuspended := false, playbackState := .playing, isPlaying := true }
    else s
  else if s.audioQueue.length > 0 then playNextSegment decodeOk s
  else s

/-- C2: while the playing flag or the fading-out flag is set, `playAudio`
leaves the entire scheduler state unchanged, however many times it is
repeated. -/
theorem playAudio_noop_while_playing
    (decodeOk : Bool) (s : PlayerState)
    (h : s.isPlaying = true ∨ s.isFadingOut = true) :
    ∀ n : Nat, (playAudio decodeOk)^[n] s = s := by
  have hstep : playAudio decodeOk s = s := by
    rcases h with h | h <;> simp [playAudio, h]
  intro n
  induction n with
  | zero => rfl
  | succ n ih => rw [Function.iterate_succ_apply, hstep, ih]

/-- A concrete playing state for the C2 witness. -/
def playingState : PlayerState :=
  { audioQueue := [segC], currentSegment := some segA,
    playbackState := .playing, isPlaying := true, isFadingOut := false,
    sourceNode := true, gainNode := true, playbackCtx := true,
    ctxSuspended := false }

/-- A concrete idle state with a two-segment queue, used by witnesses. -/
def idleQueuedState : PlayerState :=
  { audioQueue := [segA, segC], currentSegment := none,
    playbackState := .idle, isPlaying := false, isFadingOut := false,
    sourceNode := false, gainNode := false, playbackCtx := false,
    ctxSuspended := false }

/-- Witness for C2: three repeated `playAudio` calls on a playing state
leave it untouched. -/
theorem playAudio_noop_while_playing_witness :
    (playAudio true)^[3] playingState = playingState :=
  playAudio_noop_while_playing true playingState (Or.inl rfl) 3

/-- Synchronous prefix of `fadeOutAudio` (part_002 lines 1239-1262): when
no gain node or playback context exists, or a fade is already in
progress, the promise resolves immediately with no state change (second
component `false`); otherwise the fading flag is set, the gain ramp is
scheduled, and the cleanup timeout is armed (second component `true`). -/
def fadeOutStart (s : PlayerState) : PlayerState × Bool :=
  if !s.gainNode || !s.playbackCtx || s.isFadingOut then (s, false)
  else ({ s with isFadingOut := true }, true)

/-- The `setTimeout` callback of `fadeOutAudio` (part_002 lines
1265-1286): stops and drops the source and gain nodes — each write
guarded by a presence check, and the whole block by a try/catch, so an
already-released resource is tolerated — then resets to idle; `resolve()`
runs after the catch, unconditionally. -/
def fadeOutCleanup (s : PlayerState) : PlayerState :=
  { s with sourceNode := false, gainNode := false,
           playbackState := .idle, currentSegment := none,
           isPlaying := false, isFadingOut := false }

/-- A whole `fadeOutAudio(duration)` call: the synchronous prefix, then —
when a fade was scheduled — the state is exposed to arbitrary concurrent
operations (`interfere`) during the `duration` wait before the cleanup
callback runs.  The second component is the delay, in ms, after which
the returned promise resolves. -/
def fadeOutRun (duration : Nat) (interfere : PlayerState → PlayerState)
    (s : PlayerState) : PlayerState × Nat :=
  let r := fadeOutStart s
  if r.2 then (fadeOutCleanup (interfere r.1), duration) else (r.1, 0)

/-- C5: `fadeOutAudio(duration)` always resolves within `duration`: with
no gain node or playback context, or with a fade already in progress, it
resolves immediately as a no-op, and otherwise after exactly `duration`,
for every concurrent interference — in particular when `stopAudio` and
`clearQueue` release the playback resources during the fade, the cleanup
callback still completes and the promise still resolves on time. -/
theorem fadeOutAudio_resolves_within_duration :
    (∀ (duration : Nat) (interfere : PlayerState → PlayerState)
        (s : PlayerState), (fadeOutRun duration interfere s).2 ≤ duration) ∧
    (∀ (duration : Nat) (interfere : PlayerState → PlayerState)
        (s : PlayerState),
        s.gainNode = false ∨ s.playbackCtx = false ∨ s.isFadingOut = true →
        fadeOutRun duration interfere s = (s, 0)) ∧
    (∀ (duration : Nat) (s : PlayerState),
        s.gainNode = true → s.playbackCtx = true → s.isFadingOut = false →
        fadeOutRun duration (fun t => clearQueue (stopAudio t)) s =
          (fadeOutCleanup (clearQueue (stopAudio { s with isFadingOut := true })),
           duration)) := by
  refine ⟨?_, ?_, ?_⟩
  · intro duration interfere s
    unfold fadeOutRun fadeOutStart
    by_cases hg : (!s.gainNode || !s.playbackCtx || s.isFadingOut) = true
    · simp [hg]
    · simp [Bool.eq_false_iff.mpr hg]
  · intro duration interfere s h
    have hg : (!s.gainNode || !s.playbackCtx || s.isFadingOut) = true := by
      rcases h with h | h | h <;> simp [h]
    simp [fadeOutRun, fadeOutStart, hg]
  · intro duration s h1 h2 h3
    simp [fadeOutRun, fadeOutStart, h1, h2, h3]

/-- Witness for C5: the delay bound, the immediate no-op on an idle state
with no gain node, and the stop/clearQueue-interfered fade on a playing
state, all at concrete inputs. -/
theorem fadeOutAudio_resolves_witness :
    (fadeOutRun 500 id playingState).2 ≤ 500 ∧
    fadeOutRun 500 id (clearQueue playingState) = (clearQueue playingState, 0) ∧
    fadeOutRun 500 (fun t => clearQueue (stopAudio t)) playingState =
      (fadeOutCleanup (clearQueue (stopAudio { playingState with isFadingOut := true })),
       500) :=
  ⟨fadeOutAudio_resolves_within_duration.1 500 id playingState,
   fadeOutAudio_resolves_within_duration.2.1 500 id (clearQueue playingState)
     (Or.inl rfl),
   fadeOutAudio_resolves_within_duration.2.2 500 playingState rfl rfl rfl⟩

/-- The `speech_interruption` branch of `ws.onmessage` (part_002 lines
677-703): for reason `new_speech_segment` or `speech_segment_merged` the
handler runs `fadeOutAudio(300).then(() => clearQueue())`; any `tts_audio`
messages that arrive during the 300 ms fade enqueue their segments
(`duringFade`) before the cleanup and the queue clear run. -/
def handleSpeechInterruption (reason : String)
    (duringFade : List TTSAudioSegment) (s : PlayerState) : PlayerState :=
  if reason == "new_speech_segment" || reason == "speech_segment_merged" then
    clearQueue (fadeOutRun 300 (fun t => duringFade.foldl addToQueueS t) s).1
  else s

/-- C6: after a `speech_interruption` message with reason
`new_speech_segment` or `speech_segment_merged` is handled — fade, then
queue clear — the queue is empty even counting segments enqueued during
the fade, the current segment is cleared, and playback is idle with both
flags down. -/
theorem speech_interruption_clears_playback
    (reason : String) (duringFade : List TTSAudioSegment) (s : PlayerState)
    (h : reason = "new_speech_segment" ∨ reason = "speech_segment_merged") :
    (handleSpeechInterruption reason duringFade s).audioQueue = [] ∧
    (handleSpeechInterruption reason duringFade s).currentSegment = none ∧
    (handleSpeechInterruption reason duringFade s).playbackState = .idle ∧
    (handleSpeechInterruption reason duringFade s).isPlaying = false := by
  have hr : (reason == "new_speech_segment" ||
      reason == "speech_segment_merged") = true := by
    rcases h with h | h <;> simp [h]
  simp [handleSpeechInterruption, hr, clearQueue]

/-- Witness for C6: a `new_speech_segment` interruption while `segA` is
playing, with `segC` arriving mid-fade, leaves an empty idle queue. -/
theorem speech_interruption_clears_playback_witness :
    (handleSpeechInterruption "new_speech_segment" [segC] playingState).audioQueue = [] ∧
    (handleSpeechInterruption "new_speech_segment" [segC] playingState).currentSegment = none ∧
    (handleSpeechInterruption "new_speech_segment" [segC] playingState).playbackState = .idle ∧
    (handleSpeechInterruption "new_speech_segment" [segC] playingState).isPlaying = false :=
  speech_interruption_clears_playback "new_speech_segment" [segC] playingState
    (Or.inl rfl)

theorem sameKey_iff (a b : TTSAudioSegment) :
    sameKey a b = true ↔
      a.segment_id = b.segment_id ∧ a.sentence_number = b.sentence_number := by
  simp [sameKey]

/-- C10: duplicate detection compares only against segments still in the
queue, and `playNextSegment` removes the head from the queue at the
moment it becomes current; hence, for a key-unique queue with head `seg`,
once `seg` is playing, enqueuing any segment with the same key succeeds
and appends it. -/
theorem enqueue_same_key_as_current_appends
    (decodeOk : Bool) (s : PlayerState) (seg : TTSAudioSegment)
    (rest : List TTSAudioSegment)
    (hp : s.isPlaying = false) (hf : s.isFadingOut = false)
    (hq : s.audioQueue = seg :: rest) (hu : keysUnique s.audioQueue) :
    (playNextSegment decodeOk s).currentSegment = some seg ∧
    (playNextSegment decodeOk s).audioQueue = rest ∧
    (∀ seg' : TTSAudioSegment, sameKey seg' seg = true →
      addToQueue (playNextSegment decodeOk s).audioQueue seg' = rest ++ [seg']) := by
  have hrest : ∀ x ∈ rest, sameKey seg x = false := by
    rw [hq] at hu
    exact fun x hx => (List.pairwise_cons.mp hu).1 x hx
  have hcur : (playNextSegment decodeOk s).currentSegment = some seg := by
    cases decodeOk <;> simp [playNextSegment, hp, hf, hq]
  have hqr : (playNextSegment decodeOk s).audioQueue = rest := by
    cases decodeOk <;> simp [playNextSegment, hp, hf, hq]
  refine ⟨hcur, hqr, ?_⟩
  intro seg' hk
  rw [hqr]
  have hnone : rest.any (fun existing => sameKey existing seg') = false := by
    rw [List.any_eq_false]
    intro x hx
    simp only [Bool.not_eq_true]
    rcases Bool.eq_false_or_eq_true (sameKey x seg') with h | h
    · exfalso
      have hx1 := (sameKey_iff x seg').mp h
      have hk1 := (sameKey_iff seg' seg).mp hk
      have hxs : sameKey seg x = true := by
        rw [sameKey_iff]
        exact ⟨hk1.1.symm.trans hx1.1.symm, hk1.2.symm.trans hx1.2.symm⟩
      rw [hrest x hx] at hxs
      exact Bool.false_ne_true hxs
    · exact h
  simp [addToQueue, hnone]

/-- Witness for C10: playing `segA` from the queue `[segA, segC]`, then
enqueuing `segB` (same key as `segA`) appends it after `segC`. -/
theorem enqueue_same_key_as_current_appends_witness :
    (playNextSegment true idleQueuedState).currentSegment = some segA ∧
    (playNextSegment true idleQueuedState).audioQueue = [segC] ∧
    addToQueue (playNextSegment true idleQueuedState).audioQueue segB =
      [segC] ++ [segB] := by
  have h := enqueue_same_key_as_current_appends true idleQueuedState segA [segC]
    rfl rfl rfl (by decide)
  exact ⟨h.1, h.2.1, h.2.2 segB (by decide)⟩

/-- Connection states (`ConnectionState` in the source: the argument of
`updateConnectionState`). -/
inductive ConnState where
  | disconnected
  | connecting
  | connected
  | reconnecting
  | error
  deriving DecidableEq, Repr

/-- Connection-controller state: the `connectionState` React state, the
`reconnectAttemptsRef` counter, and whether `reconnectTimeoutRef` holds a
pending retry timer. -/
structure ConnCtrl where
  connectionState : ConnState
  reconnectAttempts : Nat
  reconnectTimeout : Bool
  deriving DecidableEq, Repr

/-- The events that drive the connection state (part_002 lines 636-849):
a `connect()` call, the catch branch of `connect` (token fetch or socket
construction throws), the socket's open/close/error callbacks, the
reconnect timer firing, and a `disconnect()` call. -/
inductive ConnEvent where
  | connectCall
  | connectFail
  | wsOpen
  | wsClose (wasClean : Bool)
  | wsError
  | retryTimer
  | disconnectCall
  deriving DecidableEq, Repr

/-- One synchronous handler execution, returning the new controller state
and the connection-state notifications delivered to observers:
`connectCall` is `connect()`'s synchronous prefix (line 639);
`connectFail` its catch branch (line 782); `wsOpen` is `ws.onopen`
(667-670); `wsClose` is `ws.onclose` (753-766), which schedules a retry
timer on an abnormal close while the counter is under
`maxReconnectAttempts`; `wsError` is `ws.onerror` (768-775);
`retryTimer` is the scheduled callback (759-762), which increments the
counter and re-runs `connect()`'s synchronous prefix; `disconnectCall`
is `disconnect()` (795-849), which also cancels any pending timer and
zeroes the counter. -/
def connStep (max : Nat) (s : ConnCtrl) (e : ConnEvent) :
    ConnCtrl × List ConnState :=
  match e with
  | .connectCall => ({ s with connectionState := .connecting }, [.connecting])
  | .connectFail => ({ s with connectionState := .error }, [.error])
  | .wsOpen =>
      ({ s with connectionState := .connected, reconnectAttempts := 0 },
       [.connected])
  | .wsClose wasClean =>
      if wasClean = false ∧ s.reconnectAttempts < max then
        ({ s with connectionState := .reconnecting, reconnectTimeout := true },
         [.reconnecting])
      else
        ({ s with connectionState := .disconnected }, [.disconnected])
  | .wsError => ({ s with connectionState := .error }, [.error])
  | .retryTimer =>
      if s.reconnectTimeout then
        ({ s with reconnectTimeout := false,
                  reconnectAttempts := s.reconnectAttempts + 1,
                  connectionState := .connecting }, [.connecting])
      else (s, [])
  | .disconnectCall =>
      ({ s with reconnectTimeout := false, connectionState := .disconnected,
                reconnectAttempts := 0 }, [.disconnected])

/-- Initial controller state: disconnected, counter 0, no timer. -/
def connInit : ConnCtrl :=
  { connectionState := .disconnected, reconnectAttempts := 0,
    reconnectTimeout := false }

/-- Run a sequence of connection events, collecting all notifications. -/
def runConn (max : Nat) (s : ConnCtrl) (events : List ConnEvent) :
    ConnCtrl × List ConnState :=
  match events with
  | [] => (s, [])
  | e :: rest =>
      let r := connStep max s e
      let r2 := runConn max r.1 rest
      (r2.1, r.2 ++ r2.2)

/-- Controller invariant: the counter never exceeds the limit, and a
pending retry timer was only ever armed while strictly under it. -/
def connInv (max : Nat) (s : ConnCtrl) : Prop :=
  s.reconnectAttempts ≤ max ∧
    (s.reconnectTimeout = true → s.reconnectAttempts < max)

theorem connStep_preserves_connInv (max : Nat) (s : ConnCtrl) (e : ConnEvent)
    (h : connInv max s) : connInv max (connStep max s e).1 := by
  obtain ⟨h1, h2⟩ := h
  cases e with
  | connectCall => exact ⟨h1, h2⟩
  | connectFail => exact ⟨h1, h2⟩
  | wsError => exact ⟨h1, h2⟩
  | wsOpen =>
      exact ⟨Nat.zero_le _, fun ht => Nat.lt_of_le_of_lt (Nat.zero_le _) (h2 ht)⟩
  | wsClose wasClean =>
      simp only [connStep]
      by_cases hc : wasClean = false ∧ s.reconnectAttempts < max
      · rw [if_pos hc]
        exact ⟨h1, fun _ => hc.2⟩
      · rw [if_neg hc]
        exact ⟨h1, h2⟩
  | retryTimer =>
      simp only [connStep]
      by_cases ht : s.reconnectTimeout = true
      · rw [if_pos ht]
        exact ⟨h2 ht, fun hx => absurd hx Bool.false_ne_true⟩
      · rw [if_neg ht]
        exact ⟨h1, h2⟩
  | disconnectCall =>
      exact ⟨Nat.zero_le _, fun hx => absurd hx Bool.false_ne_true⟩

theorem runConn_preserves_connInv (max : Nat) (events : List ConnEvent)
    (s : ConnCtrl) (h : connInv max s) : connInv max (runConn max s events).1 := by
  induction events generalizing s with
  | nil => exact h
  | cons e rest ih =>
      exact ih (connStep max s e).1 (connStep_preserves_connInv max s e h)

/-- The scenario trace: `connect()` followed by three failed handshakes
and retries, then a fourth abnormal close. -/
def failThrice : List ConnEvent :=
  [.connectCall, .wsClose false, .retryTimer, .wsClose false, .retryTimer,
   .wsClose false, .retryTimer, .wsClose false]

/-- C3: along every event sequence from the initial state the reconnect
counter stays at most `max`; once it has reached `max`, the next abnormal
close moves the controller to `disconnected` with no retry timer pending;
and with `maxReconnectAttempts = 3` the repeated-failure scenario ends
disconnected with the observers having seen connecting/reconnecting
alternation closed by `disconnected`. -/
theorem reconnect_attempts_bounded :
    (∀ (max : Nat) (events : List ConnEvent),
      (runConn max connInit events).1.reconnectAttempts ≤ max) ∧
    (∀ (max : Nat) (events : List ConnEvent),
      (runConn max connInit events).1.reconnectAttempts = max →
      (connStep max (runConn max connInit events).1 (.wsClose false)).1.connectionState
          = .disconnected ∧
      (connStep max (runConn max connInit events).1 (.wsClose false)).1.reconnectTimeout
          = false) ∧
    ((runConn 3 connInit failThrice).1 =
      { connectionState := .disconnected, reconnectAttempts := 3,
        reconnectTimeout := false } ∧
     (runConn 3 connInit failThrice).2 =
      [.connecting, .reconnecting, .connecting, .reconnecting, .connecting,
       .reconnecting, .connecting, .disconnected]) := by
  have hinv : ∀ (max : Nat) (events : List ConnEvent),
      connInv max (runConn max connInit events).1 := by
    intro max events
    exact runConn_preserves_connInv max events connInit
      ⟨Nat.zero_le _, by simp [connInit]⟩
  refine ⟨fun max events => (hinv max events).1, ?_, by decide⟩
  intro max events hmax
  have htimer : (runConn max connInit events).1.reconnectTimeout = false := by
    by_cases hT : (runConn max connInit events).1.reconnectTimeout = true
    · exfalso
      have hlt := (hinv max events).2 hT
      rw [hmax] at hlt
      exact lt_irrefl max hlt
    · exact Bool.eq_false_iff.mpr hT
  have hcond : ¬(True ∧
      (runConn max connInit events).1.reconnectAttempts < max) := by
    rintro ⟨-, hlt⟩
    rw [hmax] at hlt
    exact lt_irrefl max hlt
  constructor
  · simp only [connStep]
    rw [if_neg hcond]
  · simp only [connStep]
    rw [if_neg hcond]
    exact htimer

/-- Witness for C3: the bound, the terminal close, and the scenario, all
at `max = 3` with the concrete repeated-failure trace. -/
theorem reconnect_attempts_bounded_witness :
    (runConn 3 connInit failThrice).1.reconnectAttempts ≤ 3 ∧
    (connStep 3 (runConn 3 connInit failThrice).1 (.wsClose false)).1.connectionState
        = .disconnected ∧
    (connStep 3 (runConn 3 connInit failThrice).1 (.wsClose false)).1.reconnectTimeout
        = false :=
  ⟨reconnect_attempts_bounded.1 3 failThrice,
   (reconnect_attempts_bounded.2.1 3 failThrice (by decide)).1,
   (reconnect_attempts_bounded.2.1 3 failThrice (by decide)).2⟩

/-- The connection-state trajectory along a sequence of events. -/
def connTrajectory (max : Nat) (s : ConnCtrl) (events : List ConnEvent) :
    List ConnState :=
  match events with
  | [] => [s.connectionState]
  | e :: rest => s.connectionState :: connTrajectory max (connStep max s e).1 rest

/-- Formalization of the edge set asserted by the claim (the §4.2 state
machine): disconnected→connecting on connect, connecting→connected on
open, connecting/connected→reconnecting on abnormal close under the
limit, reconnecting→connecting on retry, any→error, any→disconnected —
and, explicitly, no edge from error to reconnecting. -/
def claimedEdge (a b : ConnState) : Bool :=
  match a, b with
  | _, .error => true
  | _, .disconnected => true
  | .disconnected, .connecting => true
  | .reconnecting, .connecting => true
  | .connecting, .connected => true
  | .connecting, .reconnecting => true
  | .connected, .reconnecting => true
  | _, _ => false

/-- Counterexample to C8: the standard failed-handshake event order —
`onerror` then an abnormal `onclose` — drives the reachable trajectory
disconnected, connecting, error, reconnecting: a transition from `error`
to `reconnecting`, which the claimed edge set forbids. -/
theorem connection_edges_counterexample :
    connTrajectory 3 connInit [.connectCall, .wsError, .wsClose false] =
      [.disconnected, .connecting, .error, .reconnecting] ∧
    claimedEdge .error .reconnecting = false := by
  decide

/-- C8 amended: the close/error handlers never inspect the current state,
so each event determines the target on its own — when a step changes the
state, the new state is `connected` only on a transport open,
`reconnecting` only on an abnormal close with the counter under the
limit (from any state, `error` included), `connecting` only on a
connect call or the retry timer, `disconnected` only on an explicit
disconnect or a close that is clean or at the limit, and `error` only on
a transport error or a failed connect. -/
theorem connection_edges_amended (max : Nat) (s : ConnCtrl) (e : ConnEvent)
    (h : (connStep max s e).1.connectionState ≠ s.connectionState) :
    ((connStep max s e).1.connectionState = .connected → e = .wsOpen) ∧
    ((connStep max s e).1.connectionState = .reconnecting →
      e = .wsClose false ∧ s.reconnectAttempts < max) ∧
    ((connStep max s e).1.connectionState = .connecting →
      e = .connectCall ∨ e = .retryTimer) ∧
    ((connStep max s e).1.connectionState = .disconnected →
      e = .disconnectCall ∨ e = .wsClose true ∨
        (e = .wsClose false ∧ ¬s.reconnectAttempts < max)) ∧
    ((connStep max s e).1.connectionState = .error →
      e = .wsError ∨ e = .connectFail) := by
  cases e with
  | connectCall => refine ⟨?_, ?_, ?_, ?_, ?_⟩ <;> simp [connStep]
  | connectFail => refine ⟨?_, ?_, ?_, ?_, ?_⟩ <;> simp [connStep]
  | wsOpen => refine ⟨?_, ?_, ?_, ?_, ?_⟩ <;> simp [connStep]
  | wsError => refine ⟨?_, ?_, ?_, ?_, ?_⟩ <;> simp [connStep]
  | disconnectCall => refine ⟨?_, ?_, ?_, ?_, ?_⟩ <;> simp [connStep]
  | retryTimer =>
      by_cases ht : s.reconnectTimeout = true
      · refine ⟨?_, ?_, ?_, ?_, ?_⟩ <;> simp [connStep, ht]
      · exfalso
        apply h
        simp [connStep, ht]
  | wsClose wasClean =>
      by_cases hc : wasClean = false ∧ s.reconnectAttempts < max
      · obtain ⟨hw, ha⟩ := hc
        subst hw
        refine ⟨?_, ?_, ?_, ?_, ?_⟩ <;> simp [connStep, ha]
      · refine ⟨?_, ?_, ?_, ?_, ?_⟩ <;> simp only [connStep, if_neg hc] <;>
          intro hx
        · exact absurd hx (by simp)
        · exact absurd hx (by simp)
        · exact absurd hx (by simp)
        · cases wasClean with
          | true => exact Or.inr (Or.inl rfl)
          | false =>
              refine Or.inr (Or.inr ⟨rfl, ?_⟩)
              intro hlt
              exact hc ⟨rfl, hlt⟩
        · exact absurd hx (by simp)

/-- Witness for C8's amended theorem: an abnormal close in state `error`
with the counter under the limit yields `reconnecting`, and the theorem
pins the event as an abnormal close under the limit. -/
theorem connection_edges_amended_witness :
    ConnEvent.wsClose false = ConnEvent.wsClose false ∧ (0 : Nat) < 3 :=
  (connection_edges_amended 3
      { connectionState := .error, reconnectAttempts := 0,
        reconnectTimeout := false }
      (.wsClose false) (by decide)).2.1 (by decide)

/-- An observer as registered in one of the handler Sets
(`messageHandlersRef`, `connectionHandlersRef`, ...): its registration id
and whether invoking it throws.  A JavaScript `Set` iterates in insertion
order, so a `List` in registration order is the faithful model. -/
structure Handler where
  id : Nat
  throws : Bool
  deriving DecidableEq, Repr

/-- A `forEach` over the handler set: handlers run in order until one
throws; the result is the ids actually invoked and whether an exception
escaped the loop.  `forEach` has no per-callback guard, so a throwing
callback aborts the remaining iterations. -/
def invokeAll : List Handler → List Nat × Bool
  | [] => ([], false)
  | h :: rest =>
      if h.throws then ([h.id], true)
      else
        let r := invokeAll rest
        (h.id :: r.1, r.2)

/-- Message dispatch to `messageHandlersRef` (part_002 lines 744-747):
the `forEach` runs inside `ws.onmessage`'s single try/catch (lines
672-750), so an exception from a handler aborts the iteration but is
swallowed by the outer catch — `onmessage` itself never raises. -/
def notifyMessageHandlers (handlers : List Handler) : List Nat × Bool :=
  ((invokeAll handlers).1, false)

/-- Connection-state dispatch in `updateConnectionState` (part_002 lines
621-626): a bare `forEach` with no surrounding guard; an exception aborts
the iteration and propagates to the caller. -/
def notifyConnectionHandlers (handlers : List Handler) : List Nat × Bool :=
  invokeAll handlers

/-- Counterexample to C7: with a throwing observer registered first, the
second observer never receives the message (delivery is [0], not [0, 1]),
and the connection-state dispatch raises. -/
theorem observer_isolation_counterexample :
    (notifyMessageHandlers
        [{ id := 0, throws := true }, { id := 1, throws := false }]).1 = [0] ∧
    1 ∉ (notifyMessageHandlers
        [{ id := 0, throws := true }, { id := 1, throws := false }]).1 ∧
    notifyConnectionHandlers
        [{ id := 0, throws := true }, { id := 1, throws := false }] =
      ([0], true) := by
  decide

/-- Modelled from the spec words of C7's amendment: the prefix of
observers up to and including the first throwing one, in registration
order. -/
def deliveredUpToFirstThrow : List Handler → List Nat
  | [] => []
  | h :: rest => if h.throws then [h.id] else h.id :: deliveredUpToFirstThrow rest

theorem invokeAll_delivers_prefix (handlers : List Handler) :
    (invokeAll handlers).1 = deliveredUpToFirstThrow handlers ∧
    (invokeAll handlers).2 = handlers.any (fun h => h.throws) := by
  induction handlers with
  | nil => exact ⟨rfl, rfl⟩
  | cons h rest ih =>
      by_cases ht : h.throws = true
      · simp [invokeAll, deliveredUpToFirstThrow, ht]
      · have ht' := Bool.eq_false_iff.mpr ht
        simp [invokeAll, deliveredUpToFirstThrow, ht', ih.1, ih.2]

/-- C7 amended: observers are invoked synchronously in registration
order, but invocations are not individually guarded — exactly the prefix
up to and including the first throwing observer runs; an observer that
throws aborts delivery to the rest.  The message path swallows the
exception via `onmessage`'s outer catch (the dispatch never raises, but
delivery is still lost), while the connection-state path propagates it.
When no observer throws, every observer is invoked in order. -/
theorem observer_dispatch_amended :
    (∀ handlers : List Handler,
      (notifyMessageHandlers handlers).1 = deliveredUpToFirstThrow handlers ∧
      (notifyMessageHandlers handlers).2 = false ∧
      (notifyConnectionHandlers handlers).1 = deliveredUpToFirstThrow handlers ∧
      (notifyConnectionHandlers handlers).2 =
        handlers.any (fun h => h.throws)) ∧
    (∀ handlers : List Handler, (∀ h ∈ handlers, h.throws = false) →
      (notifyMessageHandlers handlers).1 = handlers.map (fun h => h.id) ∧
      (notifyConnectionHandlers handlers).1 = handlers.map (fun h => h.id)) := by
  constructor
  · intro handlers
    obtain ⟨h1, h2⟩ := invokeAll_delivers_prefix handlers
    exact ⟨h1, rfl, h1, h2⟩
  · intro handlers hall
    have hmap : deliveredUpToFirstThrow handlers = handlers.map (fun h => h.id) := by
      induction handlers with
      | nil => rfl
      | cons h rest ih =>
          have hh := hall h (List.mem_cons_self h rest)
          simp only [deliveredUpToFirstThrow, hh, List.map_cons]
          rw [if_neg (by simp [hh])]
          exact congrArg _ (ih fun x hx => hall x (List.mem_cons_of_mem h hx))
    obtain ⟨h1, _⟩ := invokeAll_delivers_prefix handlers
    exact ⟨by rw [notifyMessageHandlers, h1, hmap],
      by rw [notifyConnectionHandlers, h1, hmap]⟩

/-- Witness for C7's amended theorem: the throwing-first registration and
a two-observer throw-free registration, at concrete inputs. -/
theorem observer_dispatch_amended_witness :
    ((notifyMessageHandlers
        [{ id := 0, throws := true }, { id := 1, throws := false }]).1 =
      deliveredUpToFirstThrow
        [{ id := 0, throws := true }, { id := 1, throws := false }] ∧
     (notifyMessageHandlers
        [{ id := 0, throws := true }, { id := 1, throws := false }]).2 = false ∧
     (notifyConnectionHandlers
        [{ id := 0, throws := true }, { id := 1, throws := false }]).1 =
      deliveredUpToFirstThrow
        [{ id := 0, throws := true }, { id := 1, throws := false }] ∧
     (notifyConnectionHandlers
        [{ id := 0, throws := true }, { id := 1, throws := false }]).2 =
      List.any ([{ id := 0, throws := true }, { id := 1, throws := false }] :
          List Handler)
        (fun h => h.throws)) ∧
    (notifyMessageHandlers
        [{ id := 2, throws := false }, { id := 3, throws := false }]).1 =
      List.map (fun h => h.id)
        ([{ id := 2, throws := false }, { id := 3, throws := false }] :
          List Handler) :=
  ⟨observer_dispatch_amended.1
      [{ id := 0, throws := true }, { id := 1, throws := false }],
   (observer_dispatch_amended.2
      [{ id := 2, throws := false }, { id := 3, throws := false }]
      (by decide)).1⟩

/-- State of the `TokenManager` class (part_002 lines 186-250): the
cached token, its epoch-ms expiry, and the in-flight refresh promise
(`refreshPromise`), modelled by the promise's id when one is pending. -/
structure TokenManagerState where
  token : Option String
  expiresAt : Int
  refreshPromise : Option Nat
  deriving DecidableEq, Repr

/-- What one synchronous run of `getToken` does before suspending. -/
inductive GetTokenOutcome where
  | cached (t : String)
  | joined (pid : Nat)
  | started (pid : Nat)
  deriving DecidableEq, Repr

/-- The initial `TokenManager` state set by the constructor. -/
def tmInit : TokenManagerState :=
  { token := none, expiresAt := 0, refreshPromise := none }

/-- The `if (this.refreshPromise) return this.refreshPromise` and
`this.refreshPromise = this.refreshToken()` steps of `getToken`
(part_002 lines 204-210): join the in-flight refresh when one exists,
otherwise install a new one — the only place a network fetch starts. -/
def joinOrStartRefresh (s : TokenManagerState) (newPid : Nat) :
    TokenManagerState × GetTokenOutcome :=
  match s.refreshPromise with
  | some p => (s, .joined p)
  | none => ({ s with refreshPromise := some newPid }, .started newPid)

/-- Synchronous prefix of `TokenManager.getToken` (part_002 lines
198-210), up to the await: `if (this.token && Date.now() <
this.expiresAt - this.refreshBuffer)` returns the cached token (JS
truthiness: the cached string must be non-null and non-empty); otherwise
the call joins or starts a refresh. -/
def getTokenSync (s : TokenManagerState) (now refreshBuffer : Int)
    (newPid : Nat) : TokenManagerState × GetTokenOutcome :=
  match s.token with
  | some t =>
      if t ≠ "" ∧ now < s.expiresAt - refreshBuffer then (s, .cached t)
      else joinOrStartRefresh s newPid
  | none => joinOrStartRefresh s newPid

/-- The cache-hit condition of lines 199-202. -/
def tokenCacheHit (s : TokenManagerState) (now refreshBuffer : Int) : Prop :=
  ∃ t, s.token = some t ∧ t ≠ "" ∧ now < s.expiresAt - refreshBuffer

/-- Completion of a successful `refreshToken` (part_002 lines 217-236)
together with the awaiting `getToken`'s resumption (lines 211-212): the
token and expiry are stored and the promise marker is cleared. -/
def resolveRefreshSuccess (t : String) (e : Int)
    (_s : TokenManagerState) : TokenManagerState :=
  { token := some t, expiresAt := e, refreshPromise := none }

/-- Completion of a failed `refreshToken` (the fetch rejects or the
response is non-2xx, lines 226-229): `refreshToken` throws before
storing anything, and the `await this.refreshPromise` in `getToken`
rethrows before the `this.refreshPromise = null` line ever runs — no
field of the manager changes, so the rejected promise stays installed. -/
def resolveRefreshFailure (s : TokenManagerState) : TokenManagerState := s

/-- Embedding of `TokenManager.clear` (part_002 lines 238-242). -/
def tmClear (_s : TokenManagerState) : TokenManagerState :=
  { token := none, expiresAt := 0, refreshPromise := none }

/-- A burst of `n` concurrent `getToken` callers: on the single-threaded
event loop each caller's synchronous prefix runs to its first suspension
before the next begins, and no refresh resolves in between.  The second
component counts the network fetches started. -/
def runCallers (now refreshBuffer : Int) :
    Nat → TokenManagerState → Nat → TokenManagerState × Nat
  | 0, s, _ => (s, 0)
  | n + 1, s, nextPid =>
      let r := getTokenSync s now refreshBuffer nextPid
      match r.2 with
      | .started _ =>
          let rest := runCallers now refreshBuffer n r.1 (nextPid + 1)
          (rest.1, rest.2 + 1)
      | _ =>
          let rest := runCallers now refreshBuffer n r.1 nextPid
          (rest.1, rest.2)

theorem getTokenSync_joined_of_inflight (s : TokenManagerState)
    (now refreshBuffer : Int) (newPid p : Nat)
    (hp : s.refreshPromise = some p)
    (hmiss : ¬tokenCacheHit s now refreshBuffer) :
    getTokenSync s now refreshBuffer newPid = (s, .joined p) := by
  obtain ⟨tok, exp, rp⟩ := s
  have hp' : rp = some p := hp
  subst hp'
  cases tok with
  | none => rfl
  | some t =>
      have hc : ¬(t ≠ "" ∧ now < exp - refreshBuffer) := by
        intro hc
        exact hmiss ⟨t, rfl, hc⟩
      have h1 : getTokenSync ⟨some t, exp, some p⟩ now refreshBuffer newPid =
          if t ≠ "" ∧ now < exp - refreshBuffer then
            (⟨some t, exp, some p⟩, .cached t)
          else joinOrStartRefresh ⟨some t, exp, some p⟩ newPid := rfl
      rw [h1, if_neg hc]
      rfl

theorem getTokenSync_no_start_of_inflight (s : TokenManagerState)
    (now refreshBuffer : Int) (newPid p : Nat)
    (hp : s.refreshPromise = some p) :
    (getTokenSync s now refreshBuffer newPid).1 = s ∧
    ∀ q, (getTokenSync s now refreshBuffer newPid).2 ≠ .started q := by
  obtain ⟨tok, exp, rp⟩ := s
  have hp' : rp = some p := hp
  subst hp'
  cases tok with
  | none => exact ⟨rfl, fun q => by simp [getTokenSync, joinOrStartRefresh]⟩
  | some t =>
      have h1 : getTokenSync ⟨some t, exp, some p⟩ now refreshBuffer newPid =
          if t ≠ "" ∧ now < exp - refreshBuffer then
            (⟨some t, exp, some p⟩, .cached t)
          else joinOrStartRefresh ⟨some t, exp, some p⟩ newPid := rfl
      by_cases hc : t ≠ "" ∧ now < exp - refreshBuffer
      · rw [h1, if_pos hc]
        exact ⟨rfl, fun q => by simp⟩
      · rw [h1, if_neg hc]
        exact ⟨rfl, fun q => by simp [joinOrStartRefresh]⟩

theorem runCallers_no_fetch_of_inflight (now refreshBuffer : Int)
    (n : Nat) (s : TokenManagerState) (nextPid p : Nat)
    (hp : s.refreshPromise = some p) (htok : s.token = none) :
    runCallers now refreshBuffer n s nextPid = (s, 0) := by
  induction n generalizing nextPid with
  | zero => rfl
  | succ n ih =>
      have hjoin : getTokenSync s now refreshBuffer nextPid = (s, .joined p) :=
        getTokenSync_joined_of_inflight s now refreshBuffer nextPid p hp
          (by rintro ⟨t, htt, -⟩; rw [htok] at htt; exact Option.noConfusion htt)
      simp only [runCallers, hjoin]
      exact ih nextPid

/-- C4: `getToken` returns the cached token with no state change and no
fetch while it is valid past the refresh buffer; while a refresh is in
flight every call returns that same in-flight promise and never starts
another fetch; and a burst of `n ≥ 1` concurrent callers on a fresh
manager performs exactly one network fetch. -/
theorem getToken_caching_and_dedup :
    (∀ (s : TokenManagerState) (now refreshBuffer : Int) (newPid : Nat)
        (t : String), s.token = some t → t ≠ "" →
        now < s.expiresAt - refreshBuffer →
        getTokenSync s now refreshBuffer newPid = (s, .cached t)) ∧
    (∀ (s : TokenManagerState) (now refreshBuffer : Int) (newPid p : Nat),
        s.refreshPromise = some p → ¬tokenCacheHit s now refreshBuffer →
        getTokenSync s now refreshBuffer newPid = (s, .joined p)) ∧
    (∀ (s : TokenManagerState) (now refreshBuffer : Int) (newPid p : Nat),
        s.refreshPromise = some p →
        ∀ q, (getTokenSync s now refreshBuffer newPid).2 ≠ .started q) ∧
    (∀ (n : Nat) (now refreshBuffer : Int) (startPid : Nat), 1 ≤ n →
        (runCallers now refreshBuffer n tmInit startPid).2 = 1) := by
  refine ⟨?_, ?_, ?_, ?_⟩
  · intro s now refreshBuffer newPid t htok hne hlt
    obtain ⟨tok, exp, rp⟩ := s
    have htok' : tok = some t := htok
    subst htok'
    have h1 : getTokenSync ⟨some t, exp, rp⟩ now refreshBuffer newPid =
        if t ≠ "" ∧ now < exp - refreshBuffer then
          (⟨some t, exp, rp⟩, .cached t)
        else joinOrStartRefresh ⟨some t, exp, rp⟩ newPid := rfl
    rw [h1, if_pos ⟨hne, hlt⟩]
  · exact fun s now rb newPid p hp hmiss =>
      getTokenSync_joined_of_inflight s now rb newPid p hp hmiss
  · exact fun s now rb newPid p hp =>
      (getTokenSync_no_start_of_inflight s now rb newPid p hp).2
  · intro n now refreshBuffer startPid hn
    obtain ⟨m, rfl⟩ : ∃ m, n = m + 1 :=
      ⟨n - 1, (Nat.succ_pred_eq_of_pos hn).symm⟩
    have hfirst : getTokenSync tmInit now refreshBuffer startPid =
        ({ tmInit with refreshPromise := some startPid }, .started startPid) := by
      rfl
    simp only [runCallers, hfirst]
    rw [runCallers_no_fetch_of_inflight now refreshBuffer m
      { tmInit with refreshPromise := some startPid } (startPid + 1) startPid
      rfl rfl]

/-- A manager holding a token valid until epoch-ms 100000. -/
def tmWithFreshToken : TokenManagerState :=
  { token := some "tok", expiresAt := 100000, refreshPromise := none }

/-- A manager with no token and refresh promise 7 in flight. -/
def tmWithInflight : TokenManagerState :=
  { token := none, expiresAt := 0, refreshPromise := some 7 }

/-- Witness for C4: a valid cached token is returned without a fetch, a
call during an in-flight refresh joins it, and three concurrent callers
on a fresh manager fetch exactly once. -/
theorem getToken_caching_and_dedup_witness :
    getTokenSync tmWithFreshToken 0 60000 5 = (tmWithFreshToken, .cached "tok") ∧
    getTokenSync tmWithInflight 0 60000 5 = (tmWithInflight, .joined 7) ∧
    (runCallers 0 60000 3 tmInit 0).2 = 1 :=
  ⟨getToken_caching_and_dedup.1 tmWithFreshToken 0 60000 5 "tok" rfl
     (by decide) (by decide),
   getToken_caching_and_dedup.2.1 tmWithInflight 0 60000 5 7 rfl
     (by rintro ⟨t, htt, -⟩; exact Option.noConfusion htt),
   getToken_caching_and_dedup.2.2.2 3 0 60000 0 (by decide)⟩

/-- C9: a failed refresh changes nothing — in particular the in-flight
marker is never cleared — so every later `getToken` call (whose cache
check still misses, the failure having stored nothing) returns that same
failed promise and starts no new fetch; `clear()` resets the manager to
its initial state, after which a `getToken` call starts a fresh fetch
again. -/
theorem failed_refresh_latches :
    (∀ s : TokenManagerState, resolveRefreshFailure s = s) ∧
    (∀ (s : TokenManagerState) (now refreshBuffer : Int) (newPid p : Nat),
        s.refreshPromise = some p → ¬tokenCacheHit s now refreshBuffer →
        getTokenSync (resolveRefreshFailure s) now refreshBuffer newPid =
          (s, .joined p)) ∧
    (∀ (s : TokenManagerState) (now refreshBuffer : Int) (newPid p : Nat),
        s.refreshPromise = some p →
        ∀ q, (getTokenSync (resolveRefreshFailure s) now refreshBuffer
          newPid).2 ≠ .started q) ∧
    (∀ s : TokenManagerState, tmClear s = tmInit) ∧
    (∀ (now refreshBuffer : Int) (newPid : Nat),
        getTokenSync tmInit now refreshBuffer newPid =
          ({ tmInit with refreshPromise := some newPid }, .started newPid)) := by
  refine ⟨fun s => rfl, ?_, ?_, fun s => rfl, fun now rb newPid => rfl⟩
  · exact fun s now rb newPid p hp hmiss =>
      getTokenSync_joined_of_inflight s now rb newPid p hp hmiss
  · exact fun s now rb newPid p hp =>
      (getTokenSync_no_start_of_inflight s now rb newPid p hp).2

/-- Witness for C9: after a failed refresh with promise 7 installed and
no token stored, the next call joins promise 7 and starts nothing;
`clear()` then resets, and the next call starts a fresh fetch. -/
theorem failed_refresh_latches_witness :
    getTokenSync (resolveRefreshFailure tmWithInflight) 1000 60000 9 =
      (tmWithInflight, .joined 7) ∧
    (getTokenSync (resolveRefreshFailure tmWithInflight) 1000 60000 9).2 ≠
      .started 9 ∧
    tmClear tmWithInflight = tmInit ∧
    getTokenSync tmInit 1000 60000 9 =
      ({ tmInit with refreshPromise := some 9 }, .started 9) :=
  ⟨failed_refresh_latches.2.1 tmWithInflight 1000 60000 9 7 rfl
     (by rintro ⟨t, htt, -⟩; exact Option.noConfusion htt),
   failed_refresh_latches.2.2.1 tmWithInflight 1000 60000 9 7 rfl 9,
   failed_refresh_latches.2.2.2.1 tmWithInflight,
   failed_refresh_latches.2.2.2.2 1000 60000 9⟩

end Vocals
